import Mathlib

/-!
Verification of the `lib-pubsub` connector (Go package `pubsub`) against its
natural-language specification.  Each definition is a shallow embedding of a
function of `src/pubsub.go`; theorems settle the spec's claims about them.
-/

namespace PubSubSpec

/-- Observable broker interactions performed by the per-message handler closure
inside `StartReceiving` (src/pubsub.go lines 190-214): `ack`/`nack` calls on the
delivered broker message, and the invocation of the registered receiver with
index `i` (0-based registration order). -/
inductive Event where
  | ack : Event
  | nack : Event
  | consume : Nat → Event
deriving DecidableEq, Repr

/-- The pair a receiver's `Consume(ctx, msgs)` call returns for the one message
it is handed: the verdict map `ack map[string]bool` (embedded as an association
list with the first binding of a key the map's binding) and the `error` result
(`none` = nil). -/
structure ConsumeResult where
  ackMap : List (String × Bool)
  err : Option String
deriving DecidableEq, Repr

/-- Go map indexing `val, ok := ack[m.ID]`: `some val` when the key is bound,
`none` when absent. -/
def lookupVerdict : List (String × Bool) → String → Option Bool
  | [], _ => none
  | (k, v) :: rest, msgId => if k = msgId then some v else lookupVerdict rest msgId

/-- The per-consumer success condition of the aggregation loop
(src/pubsub.go lines 202-203), apart from the `!ackDone` guard:
`err == nil && len(ack) > 0` and `val, ok := ack[m.ID]; ok && val`. -/
def winsNow (msgId : String) (r : ConsumeResult) : Bool :=
  r.err.isNone && !r.ackMap.isEmpty && (lookupVerdict r.ackMap msgId).getD false

/-- The `for _, c := range ps.Receivers` loop of the handler
(src/pubsub.go lines 199-209), started at receiver index `idx` with the
current `ackDone` flag.  Returns the emitted event trace (a `consume` per
receiver, plus the `msg.Ack()` issued when a receiver first satisfies the
win condition) and the final `ackDone` flag. -/
def dispatchFrom (msgId : String) : List ConsumeResult → Nat → Bool → List Event × Bool
  | [], _, ackDone => ([], ackDone)
  | r :: rest, idx, ackDone =>
    let wins := !ackDone && winsNow msgId r
    let res := dispatchFrom msgId rest (idx + 1) (ackDone || wins)
    (Event.consume idx :: ((if wins then [Event.ack] else []) ++ res.1), res.2)

/-- The whole handler closure passed to `sub.Receive`
(src/pubsub.go lines 190-214): the unconditional `msg.Ack()` first, then the
dispatch loop over all receivers, then `msg.Nack()` iff no receiver won. -/
def handleMessage (msgId : String) (rs : List ConsumeResult) : List Event :=
  let res := dispatchFrom msgId rs 0 false
  Event.ack :: (res.1 ++ if res.2 then [] else [Event.nack])

/-- Index of the first receiver, in registration order, that satisfies the
win condition for `msgId` (no error, non-empty verdict map, delivery ID marked
true), or `none` when no receiver does. -/
def firstWinner (msgId : String) : List ConsumeResult → Option Nat
  | [] => none
  | r :: rest =>
    if winsNow msgId r then some 0 else (firstWinner msgId rest).map (· + 1)

theorem dispatchFrom_done (msgId : String) (rs : List ConsumeResult) (idx : Nat) :
    dispatchFrom msgId rs idx true = ((List.range' idx rs.length).map Event.consume, true) := by
  induction rs generalizing idx with
  | nil => simp [dispatchFrom]
  | cons r rest ih => simp [dispatchFrom, ih, List.range'_succ]

theorem dispatchFrom_noWinner (msgId : String) (rs : List ConsumeResult) (idx : Nat)
    (hfw : firstWinner msgId rs = none) :
    dispatchFrom msgId rs idx false = ((List.range' idx rs.length).map Event.consume, false) := by
  induction rs generalizing idx with
  | nil => simp [dispatchFrom]
  | cons r rest ih =>
    rw [firstWinner] at hfw
    by_cases hw : winsNow msgId r
    · rw [if_pos hw] at hfw
      exact absurd hfw (by simp)
    · rw [if_neg hw] at hfw
      rw [Option.map_eq_none'] at hfw
      simp at hw
      simp [dispatchFrom, hw, ih idx.succ hfw, List.range'_succ]

theorem dispatchFrom_winner (msgId : String) (rs : List ConsumeResult) (idx k : Nat)
    (hfw : firstWinner msgId rs = some k) :
    dispatchFrom msgId rs idx false =
      ((List.range' idx (k + 1)).map Event.consume ++
        Event.ack :: (List.range' (idx + k + 1) (rs.length - (k + 1))).map Event.consume, true) := by
  induction rs generalizing idx k with
  | nil => simp [firstWinner] at hfw
  | cons r rest ih =>
    rw [firstWinner] at hfw
    by_cases hw : winsNow msgId r
    · rw [if_pos hw] at hfw
      injection hfw with hk
      subst hk
      simp [dispatchFrom, hw, dispatchFrom_done, List.range'_succ]
    · rw [if_neg hw] at hfw
      cases hfw2 : firstWinner msgId rest with
      | none =>
        rw [hfw2] at hfw
        simp at hfw
      | some k2 =>
        rw [hfw2] at hfw
        simp only [Option.map_some'] at hfw
        injection hfw with hk
        subst hk
        have h1 := ih (idx + 1) k2 hfw2
        simp at hw
        have e1 : idx + 1 + k2 + 1 = idx + (k2 + 1) + 1 := by omega
        simp [dispatchFrom, hw, h1, List.range'_succ, e1, Nat.succ_sub_succ]

/-- Events observable from `StartReceiving` itself (src/pubsub.go lines 182-222):
the error log emitted when no receiver is registered, or the per-message handler
events of the receive loop, tagged with the handled message's delivery ID. -/
inductive SREvent where
  | logNoReceiver : SREvent
  | msgEvent : String → Event → SREvent
deriving DecidableEq, Repr

/-- `StartReceiving` (src/pubsub.go lines 182-222): with no registered receiver
it logs an error and returns without starting the receive loop; otherwise the
started loop runs `handleMessage` on every delivered message. -/
def startReceiving (rs : List ConsumeResult) (delivered : List String) : List SREvent :=
  if rs.isEmpty then [SREvent.logNoReceiver]
  else (delivered.map (fun msgId => (handleMessage msgId rs).map (SREvent.msgEvent msgId))).flatten

/-- A topic descriptor of the broker admin listing; `GetTopicInfo` inspects
only its fully qualified name. -/
structure Topic where
  name : String
deriving DecidableEq, Repr

/-- The iteration of `GetTopicInfo` (src/pubsub.go lines 235-257) over the
broker's listing: a step either errors (`none`, the loop `continue`s) or
yields a topic; the end of the list is `iterator.Done`.  The first topic whose
name equals the configured topic name is returned, `none` when the listing is
exhausted without a match. -/
def getTopicInfo (topicName : String) : List (Option Topic) → Option Topic
  | [] => none
  | none :: rest => getTopicInfo topicName rest
  | some t :: rest => if t.name = topicName then some t else getTopicInfo topicName rest

/-- `EnsureTopicExists` (src/pubsub.go lines 225-227). -/
def ensureTopicExists (topicName : String) (entries : List (Option Topic)) : Bool :=
  (getTopicInfo topicName entries).isSome

theorem getTopicInfo_isSome_iff (topicName : String) (entries : List (Option Topic)) :
    (getTopicInfo topicName entries).isSome = true ↔
      ∃ t, some t ∈ entries ∧ t.name = topicName := by
  induction entries with
  | nil => simp [getTopicInfo]
  | cons e rest ih =>
    cases e with
    | none => simpa [getTopicInfo] using ih
    | some t =>
      by_cases ht : t.name = topicName
      · simp only [getTopicInfo, if_pos ht, Option.isSome_some, List.mem_cons, true_iff]
        exact ⟨t, Or.inl rfl, ht⟩
      · simp only [getTopicInfo, if_neg ht, ih, List.mem_cons]
        constructor
        · rintro ⟨u, h1, h2⟩
          exact ⟨u, Or.inr h1, h2⟩
        · rintro ⟨u, h1 | h1, h2⟩
          · injection h1 with h1e
            subst h1e
            exact absurd h2 ht
          · exact ⟨u, h1, h2⟩

theorem getTopicInfo_skips_error (topicName : String) (pre post : List (Option Topic)) :
    getTopicInfo topicName (pre ++ none :: post) = getTopicInfo topicName (pre ++ post) := by
  induction pre with
  | nil => simp [getTopicInfo]
  | cons e rest ih =>
    cases e with
    | none => simpa [getTopicInfo] using ih
    | some t =>
      by_cases ht : t.name = topicName
      · simp [getTopicInfo, ht]
      · simpa [getTopicInfo, ht] using ih

/-- C1: for every delivered message and every non-empty registration-ordered
list of consumers, the handler invokes all of them exactly once in registration
order (a `consume i` event for each index, in order, whatever the earlier
outcomes), and issues exactly one final outcome after the initial transport
acknowledgment: when consumer `k` is the first to return no error together with
a verdict map marking the delivery ID true, one acknowledgment is issued right
after `consume k` (first-success-wins) and no negative-acknowledgment follows;
otherwise exactly one negative-acknowledgment ends the trace.  A consumer whose
call errors can never be the winner (`firstWinner` requires `err = none`) and
the trace still contains every later consumer's invocation. -/
theorem dispatch_protocol_first_success (msgId : String) (rs : List ConsumeResult)
    (h : rs ≠ []) :
    handleMessage msgId rs =
      match firstWinner msgId rs with
      | some k =>
        Event.ack :: ((List.range (k + 1)).map Event.consume ++
          Event.ack :: (List.range' (k + 1) (rs.length - (k + 1))).map Event.consume)
      | none => Event.ack :: ((List.range rs.length).map Event.consume ++ [Event.nack]) := by
  cases hfw : firstWinner msgId rs with
  | none => simp [handleMessage, dispatchFrom_noWinner msgId rs 0 hfw, List.range_eq_range']
  | some k =>
    have h1 := dispatchFrom_winner msgId rs 0 k hfw
    simp [handleMessage, h1, List.range_eq_range']

/-- Witness for C1, at the spec's own scenario: consumers [A, B] registered in
that order, A returns `(m1 : false)`, B returns `(m1 : true)`: both are
invoked, and the final outcome is a single acknowledgment after B. -/
theorem dispatch_protocol_first_success_witness :
    handleMessage "m1" [⟨[("m1", false)], none⟩, ⟨[("m1", true)], none⟩] =
      [Event.ack, Event.consume 0, Event.consume 1, Event.ack] := by
  rw [dispatch_protocol_first_success "m1" [⟨[("m1", false)], none⟩, ⟨[("m1", true)], none⟩]
    (by decide)]
  decide

/-- C2: for every delivered message, the handler's first broker interaction is
the unconditional transport acknowledgment: it is the head of the event trace,
and every consumer invocation sits at a strictly later position. -/
theorem transport_ack_precedes_consumers (msgId : String) (rs : List ConsumeResult) :
    (handleMessage msgId rs).head? = some Event.ack ∧
      ∀ i j, (handleMessage msgId rs).get? i = some (Event.consume j) → 0 < i := by
  refine ⟨rfl, ?_⟩
  intro i j hij
  cases i with
  | zero => simp [handleMessage] at hij
  | succ n => omega

/-- C4: starting the receive loop with zero registered consumers is rejected:
the only emitted event is the error log, so the loop never starts and no
message dispatch event ever occurs, whatever the broker would have delivered. -/
theorem startReceiving_rejects_no_receivers (delivered : List String) :
    startReceiving [] delivered = [SREvent.logNoReceiver] ∧
      ∀ msgId e, SREvent.msgEvent msgId e ∉ startReceiving [] delivered := by
  refine ⟨rfl, ?_⟩
  intro msgId e hmem
  rw [show startReceiving [] delivered = [SREvent.logNoReceiver] from rfl] at hmem
  simp at hmem

/-- C5: the topic-existence check returns true exactly when some successfully
fetched entry of the listing has exactly the configured name — so it skips
(does not abort on) entries that error during iteration, returns true on the
first exact match, returns false when the listing is exhausted without a
match, and an entry erroring anywhere (in particular after a matching entry)
never changes the result. -/
theorem topic_existence_check (topicName : String) (entries : List (Option Topic)) :
    (ensureTopicExists topicName entries = true ↔
        ∃ t, some t ∈ entries ∧ t.name = topicName) ∧
      ∀ pre post, getTopicInfo topicName (pre ++ none :: post) =
        getTopicInfo topicName (pre ++ post) :=
  ⟨getTopicInfo_isSome_iff topicName entries,
    fun pre post => getTopicInfo_skips_error topicName pre post⟩

/-- A publish payload as Go's `any`: the type assertion `message.(string)` in
`Publish` either yields the string itself or fails, leaving an arbitrary
structured value. -/
inductive Payload (α : Type) where
  | str : String → Payload α
  | structured : α → Payload α

/-- The data `Publish` (src/pubsub.go lines 162-176) prepares for
`PublishMessage`: a string payload passes through verbatim as `[]byte(str)`;
a structured payload goes through the external JSON helper `toJSON`
(`helper.ToJSON`), whose failure aborts the publish with its error. -/
def publishData {α : Type} (toJSON : α → Except String String) :
    Payload α → Except String String
  | .str s => .ok s
  | .structured v =>
    match toJSON v with
    | .ok j => .ok j
    | .error e => .error e

/-- The network submissions `Publish` performs: exactly one `PublishMessage`
call with the prepared bytes, or none when serialization already failed. -/
def publishSends {α : Type} (toJSON : α → Except String String) (m : Payload α) :
    List String :=
  match publishData toJSON m with
  | .ok s => [s]
  | .error _ => []

/-- C8: a structured (non-string) payload is transmitted as exactly the text
the JSON serializer produced for it, and a serialization failure surfaces as
that error with no network call attempted. -/
theorem publish_structured_serializes {α : Type} (toJSON : α → Except String String)
    (v : α) :
    (∀ j, toJSON v = .ok j →
        publishData toJSON (Payload.structured v) = .ok j ∧
          publishSends toJSON (Payload.structured v) = [j]) ∧
      ∀ e, toJSON v = .error e →
        publishData toJSON (Payload.structured v) = .error e ∧
          publishSends toJSON (Payload.structured v) = [] := by
  constructor
  · intro j hj
    simp [publishData, publishSends, hj]
  · intro e he
    simp [publishData, publishSends, he]

/-- C10: a payload that is already a string is transmitted verbatim — the
result does not depend on the serializer at all, so a string that itself
contains JSON text is sent as those very bytes, neither quoted nor escaped. -/
theorem publish_string_verbatim {α : Type} (toJSON : α → Except String String)
    (s : String) :
    publishData toJSON (Payload.str s) = .ok s ∧
      publishSends toJSON (Payload.str s) = [s] :=
  ⟨rfl, rfl⟩

/-- The broker client handle; the model tracks whether the external `Close`
has already released it. -/
structure Client where
  closed : Bool
deriving DecidableEq, Repr

/-- `Disconnect` (src/pubsub.go lines 150-155): delegate to the external
client's `Close` when a handle was ever obtained (`ps.Client != nil`), return
nil otherwise.  `closeFn` is the external collaborator's `Close`, returning the
updated handle and the `error` result. -/
def disconnect (closeFn : Client → Client × Option String) :
    Option Client → Option Client × Option String
  | none => (none, none)
  | some c => (some (closeFn c).1, (closeFn c).2)

/-- C9: `Disconnect` on a never-opened connection is a no-op that never fails,
and — under the external client contract that `Close` marks the handle closed
and does not fail on an already-closed handle — a second `Disconnect` in
succession never fails either. -/
theorem disconnect_idempotent (closeFn : Client → Client × Option String)
    (hmarks : ∀ c, ((closeFn c).1).closed = true)
    (hsafe : ∀ c, c.closed = true → (closeFn c).2 = none) :
    disconnect closeFn none = (none, none) ∧
      ∀ cl, (disconnect closeFn (disconnect closeFn cl).1).2 = none := by
  refine ⟨rfl, ?_⟩
  intro cl
  cases cl with
  | none => rfl
  | some c =>
    simp only [disconnect]
    exact hsafe _ (hmarks c)

/-- Witness for C9 with a concrete closing function and both a never-opened
and an open handle. -/
theorem disconnect_idempotent_witness :
    disconnect (fun c => ({ c with closed := true }, none)) none = (none, none) ∧
      (disconnect (fun c => ({ c with closed := true }, none))
        (disconnect (fun c => ({ c with closed := true }, none)) (some ⟨false⟩)).1).2 =
        none := by
  have h := disconnect_idempotent (fun c => ({ c with closed := true }, none))
    (fun _ => rfl) (fun _ _ => rfl)
  exact ⟨h.1, h.2 (some ⟨false⟩)⟩

/-- Result of one `PublishMessage` call as observed by `PublishMessages`
(src/pubsub.go lines 298-314): the returned delivery ID (`""` on failure) and
the returned error (`none` = nil). -/
structure PubOutcome where
  msgID : String
  err : Option String
deriving DecidableEq, Repr

/-- A Go slice index-assignment `l[i] = v`: `none` models the runtime
out-of-range panic raised when `i >= len(l)`. -/
def setAt (l : List String) (i : Nat) (v : String) : Option (List String) :=
  if i < l.length then some (l.set i v) else none

/-- The loop of `PublishMessages` (src/pubsub.go lines 317-332): `results`
starts as the empty slice and `i` as 0; each iteration overwrites `err` with
the call's error, and a successful publish stores its ID with
`results[i] = msgID` (an out-of-range write is the Go panic, `none`). -/
def publishMessagesLoop : List PubOutcome → List String → Nat → Option String →
    Option (List String × Option String)
  | [], results, _, e => some (results, e)
  | o :: rest, results, i, _ =>
    if o.msgID = "" then publishMessagesLoop rest results i o.err
    else
      match setAt results i o.msgID with
      | some results2 => publishMessagesLoop rest results2 (i + 1) o.err
      | none => none

/-- `PublishMessages` (src/pubsub.go lines 317-332), given the broker's
per-message outcomes. -/
def publishMessages (outcomes : List PubOutcome) : Option (List String × Option String) :=
  publishMessagesLoop outcomes [] 0 none

/-- C3 (code bug): a batch of one message whose publish succeeds with delivery
ID `"id1"` makes `PublishMessages` execute `results[0] = "id1"` on the
zero-length slice `results := []string()`, an index-out-of-range panic — it
never returns the collected IDs the claim (and §4.4 of the spec) describes. -/
theorem publishMessages_panics_on_first_success :
    publishMessages [⟨"id1", none⟩] = none := rfl

/-- Go `strings.ReplaceAll(s, "\\n", "\n")` on the character list: scan left
to right, replacing each non-overlapping literal two-character backslash-n
sequence with a real newline (src/pubsub.go lines 77 and 103). -/
def replaceNl : List Char → List Char
  | [] => []
  | [c] => [c]
  | c1 :: c2 :: rest =>
    if c1 = '\\' ∧ c2 = 'n' then '\n' :: replaceNl rest
    else c1 :: replaceNl (c2 :: rest)

/-- The normalization on `String`. -/
def replaceAllNl (s : String) : String :=
  String.mk (replaceNl s.data)

/-- Whether a character list contains the literal two-character backslash-n
escape sequence. -/
def hasLitNl : List Char → Bool
  | [] => false
  | [_] => false
  | c1 :: c2 :: rest => if c1 = '\\' ∧ c2 = 'n' then true else hasLitNl (c2 :: rest)

theorem hasLitNl_cons_ne (c : Char) (xs : List Char) (hc : c ≠ '\\') :
    hasLitNl (c :: xs) = hasLitNl xs := by
  cases xs with
  | nil => rfl
  | cons x t => simp [hasLitNl, hc]

theorem hasLitNl_cons_cons_ne (c x : Char) (t : List Char) (hx : x ≠ 'n') :
    hasLitNl (c :: x :: t) = hasLitNl (x :: t) := by
  simp [hasLitNl, hx]

theorem replaceNl_head_ne (c : Char) (rest : List Char) (hc : c ≠ 'n') :
    ∃ h t, replaceNl (c :: rest) = h :: t ∧ h ≠ 'n' := by
  cases rest with
  | nil => exact ⟨c, [], rfl, hc⟩
  | cons c2 r =>
    by_cases hp : c = '\\' ∧ c2 = 'n'
    · refine ⟨'\n', replaceNl r, ?_, by decide⟩
      simp [replaceNl, hp]
    · refine ⟨c, replaceNl (c2 :: r), ?_, hc⟩
      simp [replaceNl, hp]

/-- After the normalization, no literal backslash-n escape sequence remains
anywhere in the result. -/
theorem hasLitNl_replaceNl (l : List Char) : hasLitNl (replaceNl l) = false := by
  induction l using replaceNl.induct with
  | case1 => rfl
  | case2 c => rfl
  | case3 c1 c2 rest hp ih =>
    simp only [replaceNl, if_pos hp]
    rw [hasLitNl_cons_ne _ _ (by decide)]
    exact ih
  | case4 c1 c2 rest hp ih =>
    simp only [replaceNl, if_neg hp]
    by_cases hc1 : c1 = '\\'
    · have hc2 : c2 ≠ 'n' := fun hn => hp ⟨hc1, hn⟩
      obtain ⟨h, t, he, hn⟩ := replaceNl_head_ne c2 rest hc2
      rw [he, hasLitNl_cons_cons_ne _ _ _ hn, ← he]
      exact ih
    · rw [hasLitNl_cons_ne _ _ hc1]
      exact ih

/-- Service-account secret material (`config.Credentials`); only the two
fields `NewPubSub` touches are carried — the remaining fields play no role in
any claim. -/
structure Credentials where
  projectID : String
  privateKey : String
deriving DecidableEq, Repr

/-- The one-shot mutation `NewPubSub` applies before serializing
(src/pubsub.go lines 76-77 and 102-103): inject the configured project id and
normalize newline-escaped private-key material. -/
def normalizeCred (projectID : String) (c : Credentials) : Credentials :=
  { c with projectID := projectID, privateKey := replaceAllNl c.privateKey }

/-- JSON string quoting, escaping as Go `encoding/json` does the characters
that can occur in these fields (quote, backslash, newline). -/
def escChar (c : Char) : List Char :=
  if c = '"' ∨ c = '\\' then ['\\', c] else if c = '\n' then ['\\', 'n'] else [c]

def quoteStr (s : String) : String :=
  "\"" ++ String.mk ((s.data.map escChar).flatten) ++ "\""

/-- `json.MarshalIndent(credentials, "", "  ")` for the credential object: an
indented JSON object literal with the two string fields. -/
def marshalIndentCred (c : Credentials) : String :=
  "\x7b\n  \"project_id\": " ++ quoteStr c.projectID ++
    ",\n  \"private_key\": " ++ quoteStr c.privateKey ++ "\n\x7d"

/-- Broker configuration (`config.PubSubConfig`) as `NewPubSub` reads it. -/
structure PubSubConfig where
  projectID : String
  topic : String
  subscription : String
  credentialsPath : String
  credentials : Option Credentials
deriving DecidableEq, Repr

/-- The temporary credential path `NewPubSub` derives when no path is
configured (src/pubsub.go lines 107-108). -/
def tempCredPath (tempDir projectID : String) : String :=
  tempDir ++ "/pubsub-credentials-" ++ projectID ++ ".json"

/-- The configuration/credential phase of `NewPubSub`
(src/pubsub.go lines 54-137): returns the list of files written as
(path, content) pairs together with either the credential-file path handed to
the client options or the raised configuration error.  `fileExists` is the
`os.Stat` check on the configured path, `tempDir` is `os.TempDir()`. -/
def newPubSub (cfg : PubSubConfig) (fileExists : Bool) (tempDir : String) :
    List (String × String) × Except String String :=
  if cfg.projectID = "" then
    ([], .error "PubSub config project_id cannot be empty")
  else if cfg.credentialsPath ≠ "" then
    if fileExists then ([], .ok cfg.credentialsPath)
    else
      match cfg.credentials with
      | some cred =>
        ([(cfg.credentialsPath, marshalIndentCred (normalizeCred cfg.projectID cred))],
          .ok cfg.credentialsPath)
      | none =>
        ([], .error ("credentials file not found at " ++ cfg.credentialsPath ++
          " and no credentials data provided in config"))
  else
    match cfg.credentials with
    | some cred =>
      ([(tempCredPath tempDir cfg.projectID,
          marshalIndentCred (normalizeCred cfg.projectID cred))],
        .ok (tempCredPath tempDir cfg.projectID))
    | none =>
      ([], .error
        "no credentials provided: either credentials_path or credentials_data must be specified")

/-- C6: when the project id is empty, or when neither a usable existing
credential file (a configured path whose file exists) nor inline credential
data is available, `NewPubSub` fails with a configuration error and performs
no filesystem write. -/
theorem newPubSub_config_error (cfg : PubSubConfig) (fileExists : Bool) (tempDir : String)
    (h : cfg.projectID = "" ∨
      (¬(cfg.credentialsPath ≠ "" ∧ fileExists = true) ∧ cfg.credentials = none)) :
    ∃ e, newPubSub cfg fileExists tempDir = ([], Except.error e) := by
  rcases h with h | ⟨hnot, hcred⟩
  · exact ⟨"PubSub config project_id cannot be empty", by simp [newPubSub, h]⟩
  · by_cases hp : cfg.projectID = ""
    · exact ⟨"PubSub config project_id cannot be empty", by simp [newPubSub, hp]⟩
    · by_cases hpath : cfg.credentialsPath = ""
      · refine ⟨"no credentials provided: either credentials_path or credentials_data must be specified", ?_⟩
        simp [newPubSub, hp, hpath, hcred]
      · have hfe : fileExists = false := by
          cases fileExists
          · rfl
          · exact absurd ⟨hpath, rfl⟩ hnot
        subst hfe
        refine ⟨"credentials file not found at " ++ cfg.credentialsPath ++
          " and no credentials data provided in config", ?_⟩
        simp [newPubSub, hp, hpath, hcred]

/-- Witness for C6: empty project id, no path, no inline data. -/
theorem newPubSub_config_error_witness :
    ∃ e, newPubSub ⟨"", "topic", "sub", "", none⟩ false "/tmp" = ([], Except.error e) :=
  newPubSub_config_error ⟨"", "topic", "sub", "", none⟩ false "/tmp" (Or.inl rfl)

/-- C7: with inline credential data and no existing file at the configured
path (or no configured path at all), `NewPubSub` writes exactly one file whose
content is the indented-JSON serialization of the normalized credential: its
project-id field is the configured project id, and its private-key field has
every literal two-character backslash-n escape replaced by a real newline, so
it contains no such literal sequence. -/
theorem newPubSub_materializes_credentials (cfg : PubSubConfig) (cred : Credentials)
    (fileExists : Bool) (tempDir : String)
    (hcred : cfg.credentials = some cred) (hp : cfg.projectID ≠ "")
    (hnofile : cfg.credentialsPath = "" ∨ fileExists = false) :
    ∃ path, newPubSub cfg fileExists tempDir =
        ([(path, marshalIndentCred (normalizeCred cfg.projectID cred))], Except.ok path) ∧
      (normalizeCred cfg.projectID cred).projectID = cfg.projectID ∧
      hasLitNl (normalizeCred cfg.projectID cred).privateKey.data = false := by
  have hkey : hasLitNl (normalizeCred cfg.projectID cred).privateKey.data = false := by
    simpa [normalizeCred, replaceAllNl] using hasLitNl_replaceNl cred.privateKey.data
  rcases hnofile with hpath | hfe
  · exact ⟨tempCredPath tempDir cfg.projectID,
      by simp [newPubSub, hp, hpath, hcred], rfl, hkey⟩
  · by_cases hpath : cfg.credentialsPath = ""
    · exact ⟨tempCredPath tempDir cfg.projectID,
        by simp [newPubSub, hp, hpath, hcred], rfl, hkey⟩
    · subst hfe
      exact ⟨cfg.credentialsPath, by simp [newPubSub, hp, hpath, hcred], rfl, hkey⟩

/-- Witness for C7, at the spec's scenario: project id `proj-1`, inline
private key containing a literal backslash-n, no file at `/tmp/creds.json`. -/
theorem newPubSub_materializes_credentials_witness :
    ∃ path,
      newPubSub ⟨"proj-1", "topic", "sub", "/tmp/creds.json",
          some ⟨"", "line1\\nline2"⟩⟩ false "/tmp" =
        ([(path, marshalIndentCred (normalizeCred "proj-1" ⟨"", "line1\\nline2"⟩))],
          Except.ok path) ∧
      (normalizeCred "proj-1" ⟨"", "line1\\nline2"⟩).projectID = "proj-1" ∧
      hasLitNl (normalizeCred "proj-1" ⟨"", "line1\\nline2"⟩).privateKey.data = false :=
  newPubSub_materializes_credentials
    ⟨"proj-1", "topic", "sub", "/tmp/creds.json", some ⟨"", "line1\\nline2"⟩⟩
    ⟨"", "line1\\nline2"⟩ false "/tmp" rfl (by decide) (Or.inr rfl)

end PubSubSpec
